import Mathlib

/-!
Verification development for the DropTheDictator outcome-resolution core.

Source layout mirrored here:
- namespace `App`        — DropTheAujla-main/app.py (world-plan backend)
- namespace `GameConfig` — DropTheAujla-main/config.py (legacy configuration)
- namespace `GameMath`   — DropTheAujla-main/game_math.py (legacy engine)
- namespace `Sdk`        — stake-math-sdk/games/drop_the_dictator (SDK variant)

Modelling conventions:
- Python float arithmetic is modelled as exact rational arithmetic over `ℚ`.
- Python `int()` (truncation toward zero) is modelled by `pyInt`.
- Python byte strings are modelled as `List ℕ` with every element `< 256`;
  text strings of the sources are ASCII, so `String` values are turned into
  bytes by mapping each character to its code point.
- `seeded_random(rng_value, index)` of app.py hashes the shortest decimal
  repr of a Python float, which has no exact counterpart over `ℚ`; functions
  consuming it are therefore parametrised by an abstract sub-draw stream
  `sub : ℕ → ℚ` standing for `fun index => seeded_random rng_value index`,
  constrained (exactly like the real one) to produce values in `[0, 1)`.
- The process-global `SERVER_SECRET` of app.py is passed explicitly as the
  first argument of functions that read it.
-/

set_option maxRecDepth 16000

/-- Python `int()` applied to a rational number: truncation toward zero. -/
def pyInt (q : ℚ) : ℤ := if 0 ≤ q then ⌊q⌋ else -⌊-q⌋

theorem pyInt_of_nonneg {q : ℚ} (h : 0 ≤ q) : pyInt q = ⌊q⌋ := by
  simp [pyInt, h]

theorem pyInt_nonneg {q : ℚ} (h : 0 ≤ q) : 0 ≤ pyInt q := by
  rw [pyInt_of_nonneg h]; exact Int.floor_nonneg.mpr h

theorem pyInt_le {q : ℚ} (h : 0 ≤ q) : (pyInt q : ℚ) ≤ q := by
  rw [pyInt_of_nonneg h]; exact Int.floor_le q

theorem le_pyInt {z : ℤ} {q : ℚ} (hq : 0 ≤ q) (h : (z : ℚ) ≤ q) : z ≤ pyInt q := by
  rw [pyInt_of_nonneg hq]; exact Int.le_floor.mpr h

namespace App

-- Configuration constants of app.py (monetary amounts in micro-units).
def RTP : ℚ := 965 / 1000
def MAX_WIN_MULTIPLIER : ℚ := 5000
def MIN_BET : ℤ := 1000000
def MAX_BET : ℤ := 100000000
def STEP_BET : ℤ := 1000000

-- World constants of app.py.
def WORLD_HEIGHT : ℤ := 20000
def GROUND_Y : ℤ := 19300
def DEADZONE : ℤ := 1500
def CORRIDOR_CENTER : ℚ := 960
def CORRIDOR_WIDTH : ℚ := 800
def CLOUD1_W : ℚ := 320 * (17 / 10)
def CLOUD1_H : ℚ := 160 * (17 / 10)

/-- Result record of `calculate_outcome` in app.py. -/
structure Outcome where
  multiplier : ℚ
  payout : ℤ
  terminal_depth_y : ℤ
  black_hole_triggered : Bool
  black_hole_multiplier : ℚ
  is_loss : Bool
deriving Repr, DecidableEq

/-- Common tail of `calculate_outcome` (app.py lines 137-154): cap the
multiplier, apply the black-hole multiplier with a second cap, truncate the
payout, and flag a loss when the final multiplier is zero. -/
def finishOutcome (bet : ℤ) (m0 : ℚ) (td : ℤ) (bh : Bool) (bhm : ℚ) : Outcome :=
  let m1 := min m0 MAX_WIN_MULTIPLIER
  let m2 := if bh then min (m1 * bhm) MAX_WIN_MULTIPLIER else m1
  { multiplier := m2
    payout := pyInt ((bet : ℚ) * m2)
    terminal_depth_y := td
    black_hole_triggered := bh
    black_hole_multiplier := bhm
    is_loss := decide (m2 = 0) }

/-- `calculate_outcome(rng_value, bet)` of app.py. `sub` abstracts the
sub-draw stream `seeded_random(rng_value, ·)`. -/
def calculate_outcome (rng_value : ℚ) (bet : ℤ) (sub : ℕ → ℚ) : Outcome :=
  if rng_value < 40 / 100 then
    -- LOSS: early terminal depth
    let depth_progress := 5 / 100 + rng_value / (40 / 100) * (15 / 100)
    finishOutcome bet 0
      (DEADZONE + pyInt (depth_progress * ((GROUND_Y - DEADZONE - 1000 : ℤ) : ℚ)))
      false 1
  else if rng_value < 75 / 100 then
    -- SMALL WIN: 0.5x to 2x
    let normalized := (rng_value - 40 / 100) / (35 / 100)
    let depth_progress := 3 / 10 + normalized * (4 / 10)
    finishOutcome bet (1 / 2 + normalized * (3 / 2))
      (DEADZONE + pyInt (depth_progress * ((GROUND_Y - DEADZONE - 500 : ℤ) : ℚ)))
      false 1
  else if rng_value < 92 / 100 then
    -- MEDIUM WIN: 2x to 10x
    let normalized := (rng_value - 75 / 100) / (17 / 100)
    let depth_progress := 7 / 10 + normalized * (25 / 100)
    let bh := sub 100 < 3 / 10
    finishOutcome bet (2 + normalized * 8)
      (DEADZONE + pyInt (depth_progress * ((GROUND_Y - DEADZONE - 300 : ℤ) : ℚ)))
      bh (if bh then 3 / 2 + sub 101 * (3 / 2) else 1)
  else if rng_value < 99 / 100 then
    -- BIG WIN: 10x to 100x
    let normalized := (rng_value - 92 / 100) / (7 / 100)
    let bh := sub 100 < 6 / 10
    finishOutcome bet (10 + normalized * 90)
      (GROUND_Y - 200)
      bh (if bh then 2 + sub 101 * 3 else 1)
  else
    -- JACKPOT: 100x to 5000x
    let normalized := (rng_value - 99 / 100) / (1 / 100)
    finishOutcome bet (min (100 + normalized * (MAX_WIN_MULTIPLIER - 100)) MAX_WIN_MULTIPLIER)
      (GROUND_Y - 100)
      true (3 + sub 101 * 7)

end App

/-!
SHA-256 and HMAC-SHA256, as used by `hashlib` / `hmac` in the sources.
Bytes are naturals `< 256`; words are naturals `< 2^32`.
-/

namespace Sha256

def add32 (a b : ℕ) : ℕ := (a + b) % 4294967296

def rotr (n x : ℕ) : ℕ := ((x >>> n) ||| (x <<< (32 - n))) % 4294967296

def bigSigma0 (x : ℕ) : ℕ := rotr 2 x ^^^ rotr 13 x ^^^ rotr 22 x

def bigSigma1 (x : ℕ) : ℕ := rotr 6 x ^^^ rotr 11 x ^^^ rotr 25 x

def smallSigma0 (x : ℕ) : ℕ := rotr 7 x ^^^ rotr 18 x ^^^ (x >>> 3)

def smallSigma1 (x : ℕ) : ℕ := rotr 17 x ^^^ rotr 19 x ^^^ (x >>> 10)

def ch (x y z : ℕ) : ℕ := (x &&& y) ^^^ ((x ^^^ 4294967295) &&& z)

def maj (x y z : ℕ) : ℕ := (x &&& y) ^^^ (x &&& z) ^^^ (y &&& z)

def K : List ℕ :=
  [1116352408, 1899447441, 3049323471, 3921009573, 961987163, 1508970993,
   2453635748, 2870763221, 3624381080, 310598401, 607225278, 1426881987,
   1925078388, 2162078206, 2614888103, 3248222580, 3835390401, 4022224774,
   264347078, 604807628, 770255983, 1249150122, 1555081692, 1996064986,
   2554220882, 2821834349, 2952996808, 3210313671, 3336571891, 3584528711,
   113926993, 338241895, 666307205, 773529912, 1294757372, 1396182291,
   1695183700, 1986661051, 2177026350, 2456956037, 2730485921, 2820302411,
   3259730800, 3345764771, 3516065817, 3600352804, 4094571909, 275423344,
   430227734, 506948616, 659060556, 883997877, 958139571, 1322822218,
   1537002063, 1747873779, 1955562222, 2024104815, 2227730452, 2361852424,
   2428436474, 2756734187, 3204031479, 3329325298]

def H0 : List ℕ :=
  [1779033703, 3144134277, 1013904242, 2773480762,
   1359893119, 2600822924, 528734635, 1541459225]

/-- Big-endian encoding of `n` into `k` bytes. -/
def natToBytesBE (k n : ℕ) : List ℕ :=
  (List.range k).map (fun i => (n >>> (8 * (k - 1 - i))) % 256)

/-- Big-endian value of a byte list. -/
def bytesToNatBE (bs : List ℕ) : ℕ := bs.foldl (fun a b => a * 256 + b) 0

/-- SHA-256 padding: append `0x80`, zeros, and the 64-bit bit length. -/
def padMessage (msg : List ℕ) : List ℕ :=
  let len := msg.length
  let zeros := (119 - len % 64) % 64
  msg ++ 0x80 :: (List.replicate zeros 0 ++ natToBytesBE 8 (8 * len))

/-- Message-schedule extension; the word list is kept most-recent-first. -/
def extendLoop : ℕ → List ℕ → List ℕ
  | 0, rws => rws
  | k + 1, rws =>
    let w := add32 (add32 (rws.getD 15 0) (smallSigma0 (rws.getD 14 0)))
                   (add32 (rws.getD 6 0) (smallSigma1 (rws.getD 1 0)))
    extendLoop k (w :: rws)

def schedule (w16 : List ℕ) : List ℕ := (extendLoop 48 w16.reverse).reverse

/-- One compression round over the 8-word state `[a,b,c,d,e,f,g,h]`;
`kw` is the round constant plus the schedule word. -/
def round (st : List ℕ) (kw : ℕ) : List ℕ :=
  match st with
  | [a, b, c, d, e, f, g, h] =>
    let t1 := add32 h (add32 (bigSigma1 e) (add32 (ch e f g) kw))
    let t2 := add32 (bigSigma0 a) (maj a b c)
    [add32 t1 t2, a, b, c, add32 d t1, e, f, g]
  | other => other

def compressBlock (h : List ℕ) (block : List ℕ) : List ℕ :=
  let w16 := (List.range 16).map (fun j => bytesToNatBE ((block.drop (4 * j)).take 4))
  let kws := List.zipWith add32 K (schedule w16)
  List.zipWith add32 h (kws.foldl round h)

/-- SHA-256 digest (32 bytes) of a byte message. -/
def sha256 (msg : List ℕ) : List ℕ :=
  let padded := padMessage msg
  let final := (List.range (padded.length / 64)).foldl
    (fun h i => compressBlock h ((padded.drop (64 * i)).take 64)) H0
  final.flatMap (natToBytesBE 4)

def hexChars : List Char := "0123456789abcdef".toList

def hexChar (n : ℕ) : Char := hexChars.getD n (Char.ofNat 48)

def byteToHex (b : ℕ) : List Char := [hexChar (b / 16), hexChar (b % 16)]

/-- Python `.hexdigest()`: the digest as lowercase hex characters. -/
def hexdigest (bs : List ℕ) : List Char := bs.flatMap byteToHex

/-- Value of a lowercase hex character, as `int(·, 16)` computes it. -/
def hexVal (c : Char) : ℕ := if c.toNat < 97 then c.toNat - 48 else c.toNat - 87

/-- Python `int(s, 16)` on lowercase hex characters. -/
def hexToNat (cs : List Char) : ℕ := cs.foldl (fun a c => 16 * a + hexVal c) 0

/-- Python `str.encode()` for the ASCII strings used by the sources. -/
def strBytes (s : String) : List ℕ := s.data.map Char.toNat

/-- `hmac.new(key, msg, hashlib.sha256).digest()`. -/
def hmac_sha256 (key msg : List ℕ) : List ℕ :=
  let k0 := if 64 < key.length then sha256 key else key
  let kpad := k0 ++ List.replicate (64 - k0.length) 0
  let ipadded := kpad.map (fun b => b ^^^ 0x36)
  let opadded := kpad.map (fun b => b ^^^ 0x5c)
  sha256 (opadded ++ sha256 (ipadded ++ msg))

/-- Standard test vector: SHA-256 of the empty message. -/
example : hexdigest (sha256 []) =
    "e3b0c44298fc1c149afbf4c8996fb92427ae41e4649b934ca495991b7852b855".toList := by
  decide

/-- Standard test vector: SHA-256 of "abc". -/
example : hexdigest (sha256 (strBytes "abc")) =
    "ba7816bf8f01cfea414140de5dae2223b00361a396177a9cb410ff61f20015ad".toList := by
  decide

end Sha256

namespace App

/-- `provably_fair_rng(server_seed, client_seed, nonce)` of app.py. The HMAC
key is the module-global `SERVER_SECRET` (passed explicitly here), and the
session server seed goes into the hashed message. -/
def provably_fair_rng (SERVER_SECRET server_seed client_seed : String) (nonce : ℕ) : ℚ :=
  let message := server_seed ++ ":" ++ client_seed ++ ":" ++ toString nonce
  let hash_bytes := Sha256.hmac_sha256 (Sha256.strBytes SERVER_SECRET) (Sha256.strBytes message)
  ((Sha256.bytesToNatBE (hash_bytes.take 4) : ℚ)) / ((2 : ℚ) ^ 32)

end App

namespace GameConfig

-- config.py constants (legacy engine; display-unit amounts).
def TARGET_RTP : ℚ := 96 / 100
def RTP_TOLERANCE : ℚ := 2 / 100
def MIN_BET : ℚ := 1 / 10
def MAX_BET : ℚ := 100
def MAX_WIN_MULTIPLIER : ℚ := 10000

/-- `GameConfig.MULTIPLIER_WEIGHTS`: ordered (multiplier, weight) pairs. -/
def MULTIPLIER_WEIGHTS : List (ℚ × ℚ) :=
  [(0, 45), (8/10, 22), (13/10, 16), (2, 10), (3, 4), (5, 18/10),
   (8, 8/10), (15, 3/10), (30, 8/100), (75, 15/1000), (200, 5/1000)]

def BLACK_HOLE_trigger_probability : ℚ := 1 / 10

/-- `GameConfig.BLACK_HOLE['multiplier_weights']`. -/
def BLACK_HOLE_multiplier_weights : List (ℚ × ℚ) :=
  [(3/2, 40), (2, 30), (3, 15), (5, 10), (7, 4), (10, 1)]

/-- `value_multiplier` field of `GameConfig.COLLECTIBLES`, keyed by name. -/
def COLLECTIBLES_value_multiplier : List (String × ℚ) :=
  [("coin_small", 5/100), ("coin_medium", 1/10), ("coin_large", 25/100), ("power_up", 1/2)]

def get_total_multiplier_weight : ℚ := (MULTIPLIER_WEIGHTS.map Prod.snd).sum

def get_total_black_hole_weight : ℚ := (BLACK_HOLE_multiplier_weights.map Prod.snd).sum

def validate_bet (amount : ℚ) : Bool := decide (MIN_BET ≤ amount ∧ amount ≤ MAX_BET)

/-- `GameConfig.clamp_payout(payout, bet_amount)`. -/
def clamp_payout (payout bet_amount : ℚ) : ℚ := min payout (bet_amount * MAX_WIN_MULTIPLIER)

end GameConfig

namespace GameMath

namespace ProvablyFairRNG

/-- Value computed by `ProvablyFairRNG.generate_random` of game_math.py at a
given nonce: `int(hmac_sha256_hexdigest[:8], 16) / 0xFFFFFFFF`. The source
method additionally increments `self.nonce`; no claim depends on that session
mutation, so the derived value is returned directly. -/
def generate_random (server_seed client_seed : String) (nonce : ℕ) : ℚ :=
  let message := client_seed ++ ":" ++ toString nonce
  let hash_result :=
    Sha256.hexdigest (Sha256.hmac_sha256 (Sha256.strBytes server_seed) (Sha256.strBytes message))
  ((Sha256.hexToNat (hash_result.take 8) : ℚ)) / ((0xFFFFFFFF : ℕ) : ℚ)

/-- `ProvablyFairRNG.verify_result` of game_math.py. -/
def verify_result (server_seed client_seed : String) (nonce : ℕ) (expected_value : ℚ) : Bool :=
  let message := client_seed ++ ":" ++ toString nonce
  let hash_result :=
    Sha256.hexdigest (Sha256.hmac_sha256 (Sha256.strBytes server_seed) (Sha256.strBytes message))
  let value := ((Sha256.hexToNat (hash_result.take 8) : ℚ)) / ((0xFFFFFFFF : ℕ) : ℚ)
  decide (|value - expected_value| < 1 / 10000)

end ProvablyFairRNG

/-- The cumulative-weight walk shared (textually) by
`MultiplierEngine.select_multiplier`, `MultiplierEngine.select_black_hole_multiplier`
and the two SDK `GameState` selectors: accumulate weights in table order and
return the first value whose cumulative weight reaches the threshold. -/
def selectLoop (threshold : ℚ) : ℚ → List (ℚ × ℚ) → Option ℚ
  | _, [] => none
  | cumulative, (m, w) :: rest =>
    if threshold ≤ cumulative + w then some m
    else selectLoop threshold (cumulative + w) rest

namespace MultiplierEngine

/-- `MultiplierEngine.select_multiplier` of game_math.py. -/
def select_multiplier (random_value : ℚ) : ℚ :=
  let total_weight := GameConfig.get_total_multiplier_weight
  let threshold := random_value * total_weight
  match selectLoop threshold 0 GameConfig.MULTIPLIER_WEIGHTS with
  | some m => m
  | none => (GameConfig.MULTIPLIER_WEIGHTS.getLastD (0, 0)).1

/-- `MultiplierEngine.select_black_hole_multiplier` of game_math.py. -/
def select_black_hole_multiplier (random_value : ℚ) : ℚ :=
  let total_weight := GameConfig.get_total_black_hole_weight
  let threshold := random_value * total_weight
  match selectLoop threshold 0 GameConfig.BLACK_HOLE_multiplier_weights with
  | some m => m
  | none => (GameConfig.BLACK_HOLE_multiplier_weights.getLastD (0, 0)).1

end MultiplierEngine

namespace PayoutEngine

/-- `PayoutEngine.calculate_base_payout`. -/
def calculate_base_payout (bet_amount multiplier : ℚ) : ℚ := bet_amount * multiplier

/-- `PayoutEngine.apply_collectibles`: returns (new payout, bonus multiplier). -/
def apply_collectibles (base_payout bet_amount : ℚ) (collectibles : List String) : ℚ × ℚ :=
  let bonus_multiplier := collectibles.foldl
    (fun acc c =>
      match GameConfig.COLLECTIBLES_value_multiplier.lookup c with
      | some v => acc + v
      | none => acc) 0
  (base_payout + bet_amount * bonus_multiplier, bonus_multiplier)

/-- `PayoutEngine.apply_black_hole_bonus`. -/
def apply_black_hole_bonus (payout black_hole_multiplier : ℚ) : ℚ :=
  payout * black_hole_multiplier

/-- The `final_payout` field computed by `PayoutEngine.calculate_final_payout`
(the source returns it inside a breakdown dictionary). -/
def calculate_final_payout (bet_amount base_multiplier : ℚ) (collectibles : List String)
    (black_hole_multiplier : ℚ) : ℚ :=
  let base_payout := calculate_base_payout bet_amount base_multiplier
  let withCollectibles := apply_collectibles base_payout bet_amount collectibles
  let final_payout := apply_black_hole_bonus withCollectibles.1 black_hole_multiplier
  GameConfig.clamp_payout final_payout bet_amount

end PayoutEngine

end GameMath

namespace Sdk

-- stake-math-sdk/games/drop_the_dictator/game_config.py
def wincap : ℚ := 10000

def MULTIPLIER_WEIGHTS : List (ℚ × ℚ) :=
  [(0, 70), (8/10, 20), (13/10, 96/10), (2, 5), (3, 2), (5, 8/10),
   (8, 2/10), (15, 1/10), (30, 5/100), (75, 1/100), (200, 5/1000)]

def BLACK_HOLE_multiplier_weights : List (ℚ × ℚ) :=
  [(3/2, 40), (2, 30), (3, 15), (5, 10), (7, 4), (10, 1)]

namespace GameState

/-- `GameState.select_multiplier` of the SDK gamestate.py. -/
def select_multiplier (random_value : ℚ) : ℚ :=
  let total_weight := (MULTIPLIER_WEIGHTS.map Prod.snd).sum
  let threshold := random_value * total_weight
  match GameMath.selectLoop threshold 0 MULTIPLIER_WEIGHTS with
  | some m => m
  | none => (MULTIPLIER_WEIGHTS.getLastD (0, 0)).1

/-- `GameState.select_black_hole_multiplier` of the SDK gamestate.py. -/
def select_black_hole_multiplier (random_value : ℚ) : ℚ :=
  let total_weight := (BLACK_HOLE_multiplier_weights.map Prod.snd).sum
  let threshold := random_value * total_weight
  match GameMath.selectLoop threshold 0 BLACK_HOLE_multiplier_weights with
  | some m => m
  | none => (BLACK_HOLE_multiplier_weights.getLastD (0, 0)).1

end GameState

end Sdk

/-- Embedding sanity check: HMAC-SHA256 test vector. -/
example :
    Sha256.hexdigest (Sha256.hmac_sha256 (Sha256.strBytes "key")
      (Sha256.strBytes "The quick brown fox jumps over the lazy dog")) =
    "f7bc83f430538424b13298e6aa6fb143ef4d59a14946175997479dbc2d1a3cd8".toList := by
  decide

/-- Embedding sanity check: the integer folded by the legacy base derivation
at a concrete input, cross-checked against a reference implementation. -/
example :
    Sha256.hexToNat (List.take 8 (Sha256.hexdigest
      (Sha256.hmac_sha256 (Sha256.strBytes "myserver")
        (Sha256.strBytes ("myclient" ++ ":" ++ toString 1000000))))) = 1801330563 := by
  decide

namespace App

/-- Cloud record emitted by the guide/wall generators of app.py. -/
structure Cloud where
  x : ℚ
  y : ℚ
  ctype : String
  cloud_type : ℕ
deriving Repr

/-- Corridor dictionary built in `generate_world_plan` (the source computes
the bounds with `CORRIDOR_WIDTH // 2`; the width is even, so exact). -/
def corridor_left_bound : ℚ := CORRIDOR_CENTER - CORRIDOR_WIDTH / 2

def corridor_right_bound : ℚ := CORRIDOR_CENTER + CORRIDOR_WIDTH / 2

/-- Row count of `generate_guide_clouds`: `max(5, int(fall_distance / 400))`. -/
def num_rows (terminal_depth : ℤ) : ℤ :=
  max 5 (pyInt (((terminal_depth - DEADZONE : ℤ) : ℚ) / 400))

/-- Vertical position of guide row `i`:
`DEADZONE + int((i / num_rows) * (fall_distance - 500))`. -/
def row_y (terminal_depth : ℤ) (i : ℕ) : ℤ :=
  let fall_distance : ℚ := ((terminal_depth - DEADZONE : ℤ) : ℚ)
  DEADZONE + pyInt ((i : ℚ) / ((num_rows terminal_depth : ℤ) : ℚ) * (fall_distance - 500))

/-- Clouds appended by iteration `i` of the `generate_guide_clouds` loop. -/
def guideRow (sub : ℕ → ℚ) (terminal_depth : ℤ) (i : ℕ) : List Cloud :=
  let y : ℚ := ((row_y terminal_depth i : ℤ) : ℚ)
  let row_rng := sub (i * 10)
  let gap_offset := (row_rng - 1/2) * (CORRIDOR_WIDTH * (4/10))
  let gap_center := CORRIDOR_CENTER + gap_offset
  let gap_width := 200 + row_rng * 150
  let left_cloud_x := gap_center - gap_width / 2 - CLOUD1_W
  let right_cloud_x := gap_center + gap_width / 2
  (if corridor_left_bound - CLOUD1_W < left_cloud_x then
    [{ x := left_cloud_x, y := y, ctype := "guide"
       cloud_type := if sub (i * 10 + 1) < 1/2 then 1 else 2 }]
   else []) ++
  (if right_cloud_x < corridor_right_bound then
    [{ x := right_cloud_x, y := y, ctype := "guide"
       cloud_type := if sub (i * 10 + 2) < 1/2 then 1 else 2 }]
   else [])

/-- `generate_guide_clouds` of app.py. -/
def generate_guide_clouds (sub : ℕ → ℚ) (terminal_depth : ℤ) : List Cloud :=
  (List.range (num_rows terminal_depth).toNat).flatMap (guideRow sub terminal_depth)

/-- `generate_wall_clouds` of app.py. -/
def generate_wall_clouds (terminal_depth : ℤ) : List Cloud :=
  (List.range ((terminal_depth - DEADZONE) / 300).toNat).flatMap fun i =>
    let y : ℚ := ((DEADZONE + (i : ℤ) * 300 : ℤ) : ℚ)
    [{ x := corridor_left_bound - CLOUD1_W - 50, y := y, ctype := "wall", cloud_type := 1 },
     { x := corridor_right_bound + 50, y := y, ctype := "wall", cloud_type := 1 }]

/-- Terminal-closure cloud (carries the 1.6 display scale of the source). -/
structure TerminalCloud where
  x : ℚ
  y : ℚ
  scale : ℚ
deriving Repr

structure TerminalClosure where
  template : String
  depth : ℤ
  clouds : List TerminalCloud
deriving Repr

/-- `generate_terminal_closure` of app.py (the `is_loss` argument is unused
by the source body as well). -/
def generate_terminal_closure (sub : ℕ → ℚ) (terminal_depth : ℤ) (is_loss : Bool) :
    TerminalClosure :=
  let template_rng := sub 500
  let chosen : String × List (ℚ × ℚ) :=
    if template_rng < 33/100 then
      ("FLAT_SEAL", [(-450, 0), (-150, 0), (150, 0), (450, 0)])
    else if template_rng < 66/100 then
      ("OFFSET_SEAL", [(-300, 0), (300, 0), (0, -200), (-600, -200), (600, -200)])
    else
      ("FUNNEL_COLLAPSE", [(0, 0), (-350, -250), (350, -250), (-700, -500), (700, -500)])
  { template := chosen.1
    depth := terminal_depth
    clouds := chosen.2.map fun off =>
      { x := CORRIDOR_CENTER + off.1 - CLOUD1_W / 2
        y := (terminal_depth : ℚ) + off.2
        scale := 16/10 } }

structure BlackHolePos where
  x : ℚ
  y : ℚ
  will_trigger : Bool
deriving Repr

/-- `generate_black_hole_position` of app.py. -/
def generate_black_hole_position (sub : ℕ → ℚ) (terminal_depth : ℤ) : BlackHolePos :=
  let progress := 6/10 + sub 200 * (2/10)
  let y := DEADZONE + pyInt (progress * ((terminal_depth - DEADZONE - 500 : ℤ) : ℚ))
  let x_offset := (sub 201 - 1/2) * CORRIDOR_WIDTH * (3/10)
  { x := CORRIDOR_CENTER + x_offset - 150, y := (y : ℚ), will_trigger := true }

structure PlacedItem where
  x : ℚ
  y : ℚ
  ctype : String
deriving Repr

/-- `generate_collectibles` of app.py (cosmetic placements). -/
def generate_collectibles (sub : ℕ → ℚ) (terminal_depth : ℤ) : List PlacedItem :=
  let num_collectibles := 50 + pyInt (sub 300 * 50)
  (List.range num_collectibles.toNat).map fun i =>
    { x := corridor_left_bound + sub (300 + i) * CORRIDOR_WIDTH
      y := (DEADZONE : ℚ) + sub (400 + i) * ((terminal_depth - DEADZONE - 500 : ℤ) : ℚ)
      ctype := if sub (500 + i) < 4/10 then "chain" else "music" }

/-- `generate_pushables` of app.py. -/
def generate_pushables (sub : ℕ → ℚ) (terminal_depth : ℤ) : List PlacedItem :=
  let num_pushables := 10 + pyInt (sub 600 * 10)
  (List.range num_pushables.toNat).map fun i =>
    { x := corridor_left_bound + sub (600 + i) * CORRIDOR_WIDTH - 275
      y := (DEADZONE : ℚ) + sub (700 + i) * ((terminal_depth - DEADZONE - 600 : ℤ) : ℚ)
      ctype := "pushable" }

/-- `generate_dark_clouds` of app.py. -/
def generate_dark_clouds (sub : ℕ → ℚ) (terminal_depth : ℤ) : List PlacedItem :=
  let num_dark := 5 + pyInt (sub 800 * 5)
  (List.range num_dark.toNat).map fun i =>
    { x := corridor_left_bound + sub (800 + i) * (CORRIDOR_WIDTH - 280)
      y := (DEADZONE : ℚ) + 500 + sub (900 + i) * ((terminal_depth - DEADZONE - 1000 : ℤ) : ℚ)
      ctype := "dark" }

structure WorldPlan where
  guide_clouds : List Cloud
  wall_clouds : List Cloud
  terminal_closure : TerminalClosure
  black_hole : Option BlackHolePos
  collectibles : List PlacedItem
  pushables : List PlacedItem
  dark_clouds : List PlacedItem
deriving Repr

/-- `generate_world_plan` of app.py. -/
def generate_world_plan (sub : ℕ → ℚ) (outcome : Outcome) : WorldPlan :=
  let terminal_depth := outcome.terminal_depth_y
  { guide_clouds := generate_guide_clouds sub terminal_depth
    wall_clouds := generate_wall_clouds terminal_depth
    terminal_closure := generate_terminal_closure sub terminal_depth outcome.is_loss
    black_hole :=
      if outcome.black_hole_triggered then some (generate_black_hole_position sub terminal_depth)
      else none
    collectibles := generate_collectibles sub terminal_depth
    pushables := generate_pushables sub terminal_depth
    dark_clouds := generate_dark_clouds sub terminal_depth }

end App

namespace App

inductive RoundStatus where
  | active
  | completed
deriving DecidableEq, Repr

/-- Per-session record stored in the `sessions` map of app.py. -/
structure Session where
  balance : ℤ
  server_seed : String
  client_seed : String
  nonce : ℕ
deriving Repr

/-- Per-round record stored in the `rounds` map of app.py. -/
structure RoundRec where
  session_id : String
  bet : ℤ
  rng_value : ℚ
  outcome : Outcome
  world_plan : WorldPlan
  status : RoundStatus
deriving Repr

/-- In-memory server state: the two module-level dictionaries of app.py. -/
structure ServerState where
  sessions : String → Option Session
  rounds : String → Option RoundRec

/-- Machine-readable results of the `/play` and `/endround` endpoints. An
`ok` carries the fields the claims inspect: the round payout and the updated
session balance. -/
inductive ApiResult where
  | sessionExpired
  | roundNotFound
  | roundCompleted
  | sessionMismatch
  | invalidBet
  | insufficientBalance
  | ok (payout : ℤ) (balance : ℤ)
deriving DecidableEq, Repr

/-- The `/play` endpoint of app.py. `round_id` stands for the fresh
`secrets.token_hex(16)` identifier, `sub` for the sub-draw stream of the
drawn `rng_value`, and `SERVER_SECRET` for the module-level secret. -/
def play (st : ServerState) (session_id : String) (bet : ℤ) (round_id : String)
    (sub : ℕ → ℚ) (SERVER_SECRET : String) : ApiResult × ServerState :=
  match st.sessions session_id with
  | none => (.sessionExpired, st)
  | some session =>
    if bet < MIN_BET then (.invalidBet, st)
    else if MAX_BET < bet then (.invalidBet, st)
    else if session.balance < bet then (.insufficientBalance, st)
    else
      let session2 := { session with
        balance := session.balance - bet
        nonce := session.nonce + 1 }
      let rng_value :=
        provably_fair_rng SERVER_SECRET session.server_seed session.client_seed session2.nonce
      let outcome := calculate_outcome rng_value bet sub
      let world_plan := generate_world_plan sub outcome
      let roundRec : RoundRec :=
        { session_id := session_id, bet := bet, rng_value := rng_value
          outcome := outcome, world_plan := world_plan, status := .active }
      (.ok outcome.payout session2.balance,
       { sessions := fun k => if k = session_id then some session2 else st.sessions k
         rounds := fun k => if k = round_id then some roundRec else st.rounds k })

/-- The `/endround` endpoint of app.py. Check order is exactly the source
order: unknown session, unknown round, non-active status, session mismatch,
then settle. -/
def end_round (st : ServerState) (session_id round_id : String) : ApiResult × ServerState :=
  match st.sessions session_id with
  | none => (.sessionExpired, st)
  | some session =>
    match st.rounds round_id with
    | none => (.roundNotFound, st)
    | some round_data =>
      if round_data.status ≠ .active then (.roundCompleted, st)
      else if round_data.session_id ≠ session_id then (.sessionMismatch, st)
      else
        let round2 := { round_data with status := .completed }
        let payout := round_data.outcome.payout
        let session2 := { session with balance := session.balance + payout }
        (.ok payout session2.balance,
         { sessions := fun k => if k = session_id then some session2 else st.sessions k
           rounds := fun k => if k = round_id then some round2 else st.rounds k })

end App

namespace App

theorem finishOutcome_multiplier (bet : ℤ) (m0 : ℚ) (td : ℤ) (bh : Bool) (bhm : ℚ) :
    (finishOutcome bet m0 td bh bhm).multiplier =
      if bh then min (min m0 MAX_WIN_MULTIPLIER * bhm) MAX_WIN_MULTIPLIER
      else min m0 MAX_WIN_MULTIPLIER := by
  cases bh <;> rfl

theorem finishOutcome_payout (bet : ℤ) (m0 : ℚ) (td : ℤ) (bh : Bool) (bhm : ℚ) :
    (finishOutcome bet m0 td bh bhm).payout =
      pyInt ((bet : ℚ) * (finishOutcome bet m0 td bh bhm).multiplier) := rfl

theorem finishOutcome_is_loss (bet : ℤ) (m0 : ℚ) (td : ℤ) (bh : Bool) (bhm : ℚ) :
    (finishOutcome bet m0 td bh bhm).is_loss =
      decide ((finishOutcome bet m0 td bh bhm).multiplier = 0) := rfl

theorem finishOutcome_mult_le (bet : ℤ) (m0 : ℚ) (td : ℤ) (bh : Bool) (bhm : ℚ) :
    (finishOutcome bet m0 td bh bhm).multiplier ≤ MAX_WIN_MULTIPLIER := by
  rw [finishOutcome_multiplier]
  split_ifs
  · exact min_le_right _ _
  · exact min_le_right _ _

theorem finishOutcome_mult_nonneg (bet : ℤ) (m0 : ℚ) (td : ℤ) (bh : Bool) (bhm : ℚ)
    (hm : 0 ≤ m0) (hbh : 0 ≤ bhm) : 0 ≤ (finishOutcome bet m0 td bh bhm).multiplier := by
  rw [finishOutcome_multiplier]
  have h1 : (0 : ℚ) ≤ min m0 MAX_WIN_MULTIPLIER := le_min hm (by norm_num [MAX_WIN_MULTIPLIER])
  split_ifs
  · exact le_min (mul_nonneg h1 hbh) (by norm_num [MAX_WIN_MULTIPLIER])
  · exact h1

theorem finishOutcome_mult_pos (bet : ℤ) (m0 : ℚ) (td : ℤ) (bh : Bool) (bhm : ℚ)
    (hm : 0 < m0) (hbh : 0 < bhm) : 0 < (finishOutcome bet m0 td bh bhm).multiplier := by
  rw [finishOutcome_multiplier]
  have h1 : (0 : ℚ) < min m0 MAX_WIN_MULTIPLIER := lt_min hm (by norm_num [MAX_WIN_MULTIPLIER])
  split_ifs
  · exact lt_min (mul_pos h1 hbh) (by norm_num [MAX_WIN_MULTIPLIER])
  · exact h1

/-- The final multiplier never exceeds the 5000x cap. -/
theorem calculate_outcome_mult_le (rng : ℚ) (bet : ℤ) (sub : ℕ → ℚ) :
    (calculate_outcome rng bet sub).multiplier ≤ MAX_WIN_MULTIPLIER := by
  unfold calculate_outcome
  split_ifs <;> apply finishOutcome_mult_le

/-- The final multiplier is nonnegative whenever the black-hole sub-draw is. -/
theorem calculate_outcome_mult_nonneg (rng : ℚ) (bet : ℤ) (sub : ℕ → ℚ)
    (hs : 0 ≤ sub 101) : 0 ≤ (calculate_outcome rng bet sub).multiplier := by
  unfold calculate_outcome
  split_ifs <;>
    apply finishOutcome_mult_nonneg <;>
    first
      | (norm_num; done)
      | (ring_nf; linarith)
      | (split_ifs <;> first | (norm_num; done) | nlinarith)
      | (rw [le_min_iff]; constructor <;>
          first
            | (norm_num [MAX_WIN_MULTIPLIER]; done)
            | (simp only [MAX_WIN_MULTIPLIER]; ring_nf; linarith))

/-- The final multiplier is zero exactly on the loss branch `rng < 0.40`. -/
theorem calculate_outcome_loss_iff (rng : ℚ) (bet : ℤ) (sub : ℕ → ℚ)
    (hs : 0 ≤ sub 101) :
    ((calculate_outcome rng bet sub).multiplier = 0 ↔ rng < 40 / 100) := by
  unfold calculate_outcome
  split_ifs with h1 h2 h3 h4
  · constructor
    · intro _; exact h1
    · intro _
      rw [finishOutcome_multiplier]
      norm_num [MAX_WIN_MULTIPLIER]
  · refine ⟨fun h => absurd h (ne_of_gt (finishOutcome_mult_pos _ _ _ _ _ ?_ ?_)),
      fun h => absurd h h1⟩
    · ring_nf; linarith
    · norm_num
  · refine ⟨fun h => absurd h (ne_of_gt (finishOutcome_mult_pos _ _ _ _ _ ?_ ?_)),
      fun h => absurd h h1⟩
    · ring_nf; linarith
    · split_ifs <;> first | (norm_num; done) | linarith
  · refine ⟨fun h => absurd h (ne_of_gt (finishOutcome_mult_pos _ _ _ _ _ ?_ ?_)),
      fun h => absurd h h1⟩
    · ring_nf; linarith
    · split_ifs <;> first | (norm_num; done) | linarith
  · refine ⟨fun h => absurd h (ne_of_gt (finishOutcome_mult_pos _ _ _ _ _ ?_ ?_)),
      fun h => absurd h h1⟩
    · rw [lt_min_iff]
      constructor
      · simp only [MAX_WIN_MULTIPLIER]; ring_nf; linarith
      · norm_num [MAX_WIN_MULTIPLIER]
    · linarith

end App

namespace App

theorem calculate_outcome_payout (rng : ℚ) (bet : ℤ) (sub : ℕ → ℚ) :
    (calculate_outcome rng bet sub).payout =
      pyInt ((bet : ℚ) * (calculate_outcome rng bet sub).multiplier) := by
  unfold calculate_outcome
  split_ifs <;> rfl

theorem calculate_outcome_is_loss (rng : ℚ) (bet : ℤ) (sub : ℕ → ℚ) :
    (calculate_outcome rng bet sub).is_loss =
      decide ((calculate_outcome rng bet sub).multiplier = 0) := by
  unfold calculate_outcome
  split_ifs <;> rfl

/-- On the loss branch the outcome fields are fixed: zero multiplier and
payout, no black hole. -/
theorem calculate_outcome_loss_fields (rng : ℚ) (bet : ℤ) (sub : ℕ → ℚ)
    (h : rng < 40 / 100) :
    (calculate_outcome rng bet sub).multiplier = 0
    ∧ (calculate_outcome rng bet sub).payout = 0
    ∧ (calculate_outcome rng bet sub).black_hole_triggered = false
    ∧ (calculate_outcome rng bet sub).black_hole_multiplier = 1 := by
  unfold calculate_outcome
  rw [if_pos h]
  refine ⟨?_, ?_, rfl, rfl⟩
  · rw [finishOutcome_multiplier]; norm_num [MAX_WIN_MULTIPLIER]
  · rw [finishOutcome_payout, finishOutcome_multiplier]
    norm_num [MAX_WIN_MULTIPLIER, pyInt]

end App

/-- C2: for every bet and base random value, the world-plan backend caps the
resolved multiplier at `MAX_WIN_MULTIPLIER = 5000` and pays out at most
`bet * 5000`; the legacy engine clamps any payout to `bet * 10000` through
`GameConfig.clamp_payout`, including inside
`PayoutEngine.calculate_final_payout`. -/
theorem C2_payout_bound (rng : ℚ) (bet : ℤ) (sub : ℕ → ℚ)
    (hbet : 0 ≤ bet) (hsub : ∀ j, 0 ≤ sub j) :
    ((App.calculate_outcome rng bet sub).multiplier ≤ App.MAX_WIN_MULTIPLIER
      ∧ (App.calculate_outcome rng bet sub).payout ≤ bet * 5000)
    ∧ (∀ p b : ℚ, GameConfig.clamp_payout p b ≤ b * GameConfig.MAX_WIN_MULTIPLIER)
    ∧ (∀ (b m bhm : ℚ) (cs : List String),
        GameMath.PayoutEngine.calculate_final_payout b m cs bhm ≤ b * 10000) := by
  refine ⟨⟨App.calculate_outcome_mult_le rng bet sub, ?_⟩,
    fun p b => min_le_right _ _, fun b m bhm cs => ?_⟩
  · have hmle := App.calculate_outcome_mult_le rng bet sub
    have hmnn := App.calculate_outcome_mult_nonneg rng bet sub (hsub 101)
    rw [App.calculate_outcome_payout]
    have hbq : (0 : ℚ) ≤ (bet : ℚ) := by exact_mod_cast hbet
    have hq : (0 : ℚ) ≤ (bet : ℚ) * (App.calculate_outcome rng bet sub).multiplier :=
      mul_nonneg hbq hmnn
    have h2 := pyInt_le hq
    have h3 : (bet : ℚ) * (App.calculate_outcome rng bet sub).multiplier
        ≤ (bet : ℚ) * 5000 := by
      apply mul_le_mul_of_nonneg_left _ hbq
      simpa [App.MAX_WIN_MULTIPLIER] using hmle
    have h4 : ((pyInt ((bet : ℚ) * (App.calculate_outcome rng bet sub).multiplier) : ℤ) : ℚ)
        ≤ ((bet * 5000 : ℤ) : ℚ) := by push_cast; linarith
    exact_mod_cast h4
  · unfold GameMath.PayoutEngine.calculate_final_payout GameConfig.clamp_payout
      GameConfig.MAX_WIN_MULTIPLIER
    exact min_le_right _ _

/-- Witness for C2 at a concrete input. -/
theorem C2_payout_bound_witness :
    ((App.calculate_outcome (1/2) 1000000 (fun _ => 1/2)).multiplier ≤ App.MAX_WIN_MULTIPLIER
      ∧ (App.calculate_outcome (1/2) 1000000 (fun _ => 1/2)).payout ≤ 1000000 * 5000)
    ∧ (∀ p b : ℚ, GameConfig.clamp_payout p b ≤ b * GameConfig.MAX_WIN_MULTIPLIER)
    ∧ (∀ (b m bhm : ℚ) (cs : List String),
        GameMath.PayoutEngine.calculate_final_payout b m cs bhm ≤ b * 10000) :=
  C2_payout_bound (1/2) 1000000 (fun _ => 1/2) (by norm_num) (fun j => by norm_num)

/-- C10: the world-plan resolver flags a loss exactly when the base value is
below 0.40, and a loss forces payout 0, no black hole, and black-hole
multiplier 1. -/
theorem C10_loss_characterization (rng : ℚ) (bet : ℤ) (sub : ℕ → ℚ)
    (h0 : 0 ≤ rng) (h1 : rng < 1) (hsub : ∀ j, 0 ≤ sub j ∧ sub j < 1) :
    ((App.calculate_outcome rng bet sub).is_loss = true ↔ rng < 40 / 100)
    ∧ ((App.calculate_outcome rng bet sub).is_loss = true →
        (App.calculate_outcome rng bet sub).payout = 0
        ∧ (App.calculate_outcome rng bet sub).black_hole_triggered = false
        ∧ (App.calculate_outcome rng bet sub).black_hole_multiplier = 1) := by
  have hs := (hsub 101).1
  have hiff : (App.calculate_outcome rng bet sub).is_loss = true ↔ rng < 40 / 100 := by
    rw [App.calculate_outcome_is_loss, decide_eq_true_eq]
    exact App.calculate_outcome_loss_iff rng bet sub hs
  refine ⟨hiff, fun h => ?_⟩
  obtain ⟨_, hp, hbh, hbhm⟩ :=
    App.calculate_outcome_loss_fields rng bet sub (hiff.mp h)
  exact ⟨hp, hbh, hbhm⟩

/-- Witness for C10 at a concrete input. -/
theorem C10_loss_characterization_witness :
    ((App.calculate_outcome (1/10) 5000000 (fun _ => 1/2)).is_loss = true ↔
        (1/10 : ℚ) < 40 / 100)
    ∧ ((App.calculate_outcome (1/10) 5000000 (fun _ => 1/2)).is_loss = true →
        (App.calculate_outcome (1/10) 5000000 (fun _ => 1/2)).payout = 0
        ∧ (App.calculate_outcome (1/10) 5000000 (fun _ => 1/2)).black_hole_triggered = false
        ∧ (App.calculate_outcome (1/10) 5000000 (fun _ => 1/2)).black_hole_multiplier = 1) :=
  C10_loss_characterization (1/10) 5000000 (fun _ => 1/2) (by norm_num) (by norm_num)
    (fun j => by norm_num)

/-- C4: concrete resolver scenarios for every bet: base 0.10 is a loss with
multiplier 0; base 0.50 resolves strictly inside (0.5, 2) with no loss flag;
base 0.995 lands in the jackpot tier and is capped at the wincap because the
raw jackpot computation always exceeds it. -/
theorem C4_concrete_scenarios (bet : ℤ) (sub : ℕ → ℚ)
    (hsub : ∀ j, 0 ≤ sub j ∧ sub j < 1) :
    ((App.calculate_outcome (10/100) bet sub).multiplier = 0
      ∧ (App.calculate_outcome (10/100) bet sub).is_loss = true)
    ∧ (1/2 < (App.calculate_outcome (50/100) bet sub).multiplier
      ∧ (App.calculate_outcome (50/100) bet sub).multiplier < 2
      ∧ (App.calculate_outcome (50/100) bet sub).is_loss = false)
    ∧ (100 ≤ (App.calculate_outcome (995/1000) bet sub).multiplier
      ∧ (App.calculate_outcome (995/1000) bet sub).multiplier = App.MAX_WIN_MULTIPLIER) := by
  have h10 : (App.calculate_outcome (10/100) bet sub).multiplier = 0 :=
    (App.calculate_outcome_loss_fields (10/100) bet sub (by norm_num)).1
  have h50 : (App.calculate_outcome (50/100) bet sub).multiplier = 13/14 := by
    unfold App.calculate_outcome
    rw [if_neg (by norm_num), if_pos (by norm_num), App.finishOutcome_multiplier]
    norm_num [App.MAX_WIN_MULTIPLIER]
  have h995 : (App.calculate_outcome (995/1000) bet sub).multiplier = 5000 := by
    unfold App.calculate_outcome
    rw [if_neg (by norm_num), if_neg (by norm_num), if_neg (by norm_num),
      if_neg (by norm_num), App.finishOutcome_multiplier]
    have hs := (hsub 101).1
    have hmin : min (min (100 + (995/1000 - 99/100) / (1/100) * (App.MAX_WIN_MULTIPLIER - 100))
        App.MAX_WIN_MULTIPLIER) App.MAX_WIN_MULTIPLIER = 2550 := by
      norm_num [App.MAX_WIN_MULTIPLIER]
    rw [if_pos rfl, hmin, show App.MAX_WIN_MULTIPLIER = (5000 : ℚ) from rfl]
    exact min_eq_right (by nlinarith [hs])
  refine ⟨⟨h10, ?_⟩, ⟨?_, ?_, ?_⟩, ?_, ?_⟩
  · rw [App.calculate_outcome_is_loss, h10]; norm_num
  · rw [h50]; norm_num
  · rw [h50]; norm_num
  · rw [App.calculate_outcome_is_loss, h50]; norm_num
  · rw [h995]; norm_num
  · rw [h995]; norm_num [App.MAX_WIN_MULTIPLIER]

/-- Witness for C4 at a concrete input. -/
theorem C4_concrete_scenarios_witness :
    ((App.calculate_outcome (10/100) 7000000 (fun _ => 1/4)).multiplier = 0
      ∧ (App.calculate_outcome (10/100) 7000000 (fun _ => 1/4)).is_loss = true)
    ∧ (1/2 < (App.calculate_outcome (50/100) 7000000 (fun _ => 1/4)).multiplier
      ∧ (App.calculate_outcome (50/100) 7000000 (fun _ => 1/4)).multiplier < 2
      ∧ (App.calculate_outcome (50/100) 7000000 (fun _ => 1/4)).is_loss = false)
    ∧ (100 ≤ (App.calculate_outcome (995/1000) 7000000 (fun _ => 1/4)).multiplier
      ∧ (App.calculate_outcome (995/1000) 7000000 (fun _ => 1/4)).multiplier
          = App.MAX_WIN_MULTIPLIER) :=
  C4_concrete_scenarios 7000000 (fun _ => 1/4) (fun j => by norm_num)

/-- Spec-side definition for the C8 refinement, following the words of the
spec: pair each table entry with its running cumulative weight. -/
def specCumulative (c0 : ℚ) : List (ℚ × ℚ) → List (ℚ × ℚ)
  | [] => []
  | (m, w) :: rest => (m, c0 + w) :: specCumulative (c0 + w) rest

/-- Spec-side definition for the C8 refinement, following the words of the
spec: compute `threshold = base * W`, select the first entry whose cumulative
weight is greater than or equal to the threshold, and fall back to the last
entry when the walk reaches the end without a match. -/
def specSelect (table : List (ℚ × ℚ)) (base : ℚ) : ℚ :=
  match (specCumulative 0 table).find?
      (fun p => decide (base * (table.map Prod.snd).sum ≤ p.2)) with
  | some p => p.1
  | none => (table.getLastD (0, 0)).1

/-- The source loop returns the first entry whose cumulative weight reaches
the threshold. -/
theorem selectLoop_spec (t : ℚ) (c : ℚ) (table : List (ℚ × ℚ)) :
    GameMath.selectLoop t c table =
      ((specCumulative c table).find? (fun p => decide (t ≤ p.2))).map Prod.fst := by
  induction table generalizing c with
  | nil => rfl
  | cons hd tl ih =>
    obtain ⟨m, w⟩ := hd
    show (if t ≤ c + w then some m else GameMath.selectLoop t (c + w) tl) = _
    by_cases h : t ≤ c + w
    · rw [if_pos h, specCumulative,
        List.find?_cons_of_pos (specCumulative (c + w) tl) (decide_eq_true h)]
      rfl
    · rw [if_neg h, specCumulative,
        List.find?_cons_of_neg (specCumulative (c + w) tl) (by simpa using h)]
      exact ih (c + w)

theorem selectRun_spec (table : List (ℚ × ℚ)) (r : ℚ) :
    (match GameMath.selectLoop (r * (table.map Prod.snd).sum) 0 table with
     | some m => m
     | none => (table.getLastD (0, 0)).1) = specSelect table r := by
  unfold specSelect
  rw [selectLoop_spec]
  cases (specCumulative 0 table).find?
      (fun p => decide (r * (table.map Prod.snd).sum ≤ p.2)) <;> rfl

/-- C8: each weighted selector (legacy engine and SDK, primary table and
black-hole bonus table) realises the cumulative-walk rule of the spec:
threshold `base * W`, first entry whose cumulative weight reaches the
threshold, last entry as fallback. -/
theorem C8_weighted_selection (r : ℚ) :
    GameMath.MultiplierEngine.select_multiplier r
        = specSelect GameConfig.MULTIPLIER_WEIGHTS r
    ∧ GameMath.MultiplierEngine.select_black_hole_multiplier r
        = specSelect GameConfig.BLACK_HOLE_multiplier_weights r
    ∧ Sdk.GameState.select_multiplier r = specSelect Sdk.MULTIPLIER_WEIGHTS r
    ∧ Sdk.GameState.select_black_hole_multiplier r
        = specSelect Sdk.BLACK_HOLE_multiplier_weights r := by
  refine ⟨?_, ?_, ?_, ?_⟩
  · exact selectRun_spec GameConfig.MULTIPLIER_WEIGHTS r
  · exact selectRun_spec GameConfig.BLACK_HOLE_multiplier_weights r
  · exact selectRun_spec Sdk.MULTIPLIER_WEIGHTS r
  · exact selectRun_spec Sdk.BLACK_HOLE_multiplier_weights r

namespace App

/-- Settling an already-completed round returns `ROUND_COMPLETED` (or
`SESSION_EXPIRED` for an unknown caller) and leaves the state untouched:
the status check precedes every mutation. -/
theorem end_round_completed_unchanged (st : ServerState) (rid : String) (rd : RoundRec)
    (hr : st.rounds rid = some rd) (hc : rd.status = .completed) (sid2 : String) :
    (end_round st sid2 rid).2 = st
    ∧ ((end_round st sid2 rid).1 = .roundCompleted
        ∨ (end_round st sid2 rid).1 = .sessionExpired) := by
  unfold end_round
  cases hsess : st.sessions sid2 <;> simp [hsess, hr, hc]

/-- A known session settling someone else or its own completed round gets
exactly `ROUND_COMPLETED`. -/
theorem end_round_completed_result (st : ServerState) (rid : String) (rd : RoundRec)
    (hr : st.rounds rid = some rd) (hc : rd.status = .completed)
    (sid2 : String) (s2 : Session) (hs2 : st.sessions sid2 = some s2) :
    (end_round st sid2 rid).1 = .roundCompleted ∧ (end_round st sid2 rid).2 = st := by
  unfold end_round
  simp [hs2, hr, hc]

/-- Successful settlement: the owning session is credited the stored payout
and the round transitions to `completed`. -/
theorem end_round_success (st : ServerState) (sid rid : String) (s : Session) (rd : RoundRec)
    (hs : st.sessions sid = some s) (hr : st.rounds rid = some rd)
    (hown : rd.session_id = sid) (hact : rd.status = .active) :
    end_round st sid rid =
      (.ok rd.outcome.payout (s.balance + rd.outcome.payout),
       { sessions := fun k =>
           if k = sid then some { s with balance := s.balance + rd.outcome.payout }
           else st.sessions k
         rounds := fun k =>
           if k = rid then some { rd with status := .completed }
           else st.rounds k }) := by
  unfold end_round
  simp [hs, hr, hown, hact]

/-- One settlement attempt on round `rid` by caller `sid`, keeping only the
state (used to fold arbitrary call sequences). -/
def settleStep (rid : String) (st : ServerState) (sid : String) : ServerState :=
  (end_round st sid rid).2

/-- Once the round is completed, any sequence of further settlement attempts
on it leaves the state fixed. -/
theorem settle_fold_fixed (st : ServerState) (rid : String) (rd : RoundRec)
    (hr : st.rounds rid = some rd) (hc : rd.status = .completed) (calls : List String) :
    calls.foldl (settleStep rid) st = st := by
  induction calls with
  | nil => rfl
  | cons hd tl ih =>
    have h := (end_round_completed_unchanged st rid rd hr hc hd).1
    simpa [settleStep, h] using ih

end App

/-- C1: settlement is exactly-once. From a state where the round is active
and owned by the calling session, the first `endRound` returns the stored
payout and credits it to the owner; the round becomes `completed`; every
further `endRound` on that round from any known session returns
`ROUND_COMPLETED` and changes nothing; and over any further sequence of
settlement attempts the owner balance stays credited exactly once. -/
theorem C1_settlement_exactly_once (st : App.ServerState) (sid rid : String)
    (s : App.Session) (rd : App.RoundRec)
    (hs : st.sessions sid = some s) (hr : st.rounds rid = some rd)
    (hown : rd.session_id = sid) (hact : rd.status = .active) :
    (App.end_round st sid rid).1
        = .ok rd.outcome.payout (s.balance + rd.outcome.payout)
    ∧ (((App.end_round st sid rid).2.sessions sid).map App.Session.balance
        = some (s.balance + rd.outcome.payout))
    ∧ ((App.end_round st sid rid).2.rounds rid
        = some { rd with status := App.RoundStatus.completed })
    ∧ (∀ sid2 s2, (App.end_round st sid rid).2.sessions sid2 = some s2 →
        (App.end_round (App.end_round st sid rid).2 sid2 rid).1 = .roundCompleted
        ∧ (App.end_round (App.end_round st sid rid).2 sid2 rid).2
            = (App.end_round st sid rid).2)
    ∧ (∀ calls : List String,
        ((calls.foldl (App.settleStep rid) (App.end_round st sid rid).2).sessions sid).map
            App.Session.balance = some (s.balance + rd.outcome.payout)
        ∧ (calls.foldl (App.settleStep rid) (App.end_round st sid rid).2).rounds rid
            = some { rd with status := App.RoundStatus.completed }) := by
  have hsucc := App.end_round_success st sid rid s rd hs hr hown hact
  rw [hsucc]
  have hr1 : (App.ServerState.mk
      (fun k => if k = sid then some { s with balance := s.balance + rd.outcome.payout }
        else st.sessions k)
      (fun k => if k = rid then some { rd with status := App.RoundStatus.completed }
        else st.rounds k)).rounds rid
      = some { rd with status := App.RoundStatus.completed } := by simp
  refine ⟨rfl, by simp, by simp, fun sid2 s2 hs2 => ?_, fun calls => ?_⟩
  · exact App.end_round_completed_result _ rid
      { rd with status := App.RoundStatus.completed } hr1 rfl sid2 s2 hs2
  · have hfix := App.settle_fold_fixed _ rid
      { rd with status := App.RoundStatus.completed } hr1 rfl calls
    rw [hfix]
    exact ⟨by simp, by simp⟩

/-- Concrete outcome record used by the concrete-state theorems below. -/
def demoOutcome : App.Outcome :=
  { multiplier := 1, payout := 50, terminal_depth_y := 2340
    black_hole_triggered := false, black_hole_multiplier := 1, is_loss := false }

def demoPlan : App.WorldPlan :=
  { guide_clouds := [], wall_clouds := []
    terminal_closure := { template := "FLAT_SEAL", depth := 2340, clouds := [] }
    black_hole := none, collectibles := [], pushables := [], dark_clouds := [] }

def demoSession : App.Session :=
  { balance := 10000000000, server_seed := "srv", client_seed := "cli", nonce := 0 }

def demoRound : App.RoundRec :=
  { session_id := "s1", bet := 10, rng_value := 1/2
    outcome := demoOutcome, world_plan := demoPlan, status := .active }

/-- Concrete server state with one session `s1` and one active round `r1`. -/
def demoState : App.ServerState :=
  { sessions := fun k => if k = "s1" then some demoSession else none
    rounds := fun k => if k = "r1" then some demoRound else none }

/-- Witness for C1 on a concrete state. -/
theorem C1_settlement_exactly_once_witness :
    (App.end_round demoState "s1" "r1").1
        = .ok demoRound.outcome.payout (demoSession.balance + demoRound.outcome.payout)
    ∧ (((App.end_round demoState "s1" "r1").2.sessions "s1").map App.Session.balance
        = some (demoSession.balance + demoRound.outcome.payout))
    ∧ ((App.end_round demoState "s1" "r1").2.rounds "r1"
        = some { demoRound with status := App.RoundStatus.completed })
    ∧ (∀ sid2 s2, (App.end_round demoState "s1" "r1").2.sessions sid2 = some s2 →
        (App.end_round (App.end_round demoState "s1" "r1").2 sid2 "r1").1 = .roundCompleted
        ∧ (App.end_round (App.end_round demoState "s1" "r1").2 sid2 "r1").2
            = (App.end_round demoState "s1" "r1").2)
    ∧ (∀ calls : List String,
        ((calls.foldl (App.settleStep "r1") (App.end_round demoState "s1" "r1").2).sessions
            "s1").map App.Session.balance
          = some (demoSession.balance + demoRound.outcome.payout)
        ∧ (calls.foldl (App.settleStep "r1") (App.end_round demoState "s1" "r1").2).rounds "r1"
          = some { demoRound with status := App.RoundStatus.completed }) :=
  C1_settlement_exactly_once demoState "s1" "r1" demoSession demoRound rfl rfl rfl rfl

namespace App

/-- A known session receives `INVALID_BET` from `/play` exactly when the bet
misses the min/max window; every such rejection leaves the state unchanged
(the bet-step is never checked by the source). -/
theorem play_invalidBet_characterization (st : ServerState) (sid : String) (s : Session)
    (bet : ℤ) (rid : String) (sub : ℕ → ℚ) (secret : String)
    (hs : st.sessions sid = some s) :
    ((play st sid bet rid sub secret).1 = .invalidBet ↔ (bet < MIN_BET ∨ MAX_BET < bet))
    ∧ ((bet < MIN_BET ∨ MAX_BET < bet) → (play st sid bet rid sub secret).2 = st) := by
  unfold play
  simp only [hs]
  split_ifs <;> simp_all

end App

/-- C7 (amended): for a known session, `/play` rejects with `INVALID_BET`
exactly when the bet is below the minimum or above the maximum (the
configured step is not validated by the code); a rejected play leaves the
server state unchanged; and a bet of `MAX_BET + STEP_BET` is rejected with
`INVALID_BET`. -/
theorem C7_bet_validation (st : App.ServerState) (sid : String) (s : App.Session)
    (bet : ℤ) (rid : String) (sub : ℕ → ℚ) (secret : String)
    (hs : st.sessions sid = some s) :
    ((App.play st sid bet rid sub secret).1 = .invalidBet
        ↔ (bet < App.MIN_BET ∨ App.MAX_BET < bet))
    ∧ ((App.play st sid bet rid sub secret).1 = .invalidBet
        → (App.play st sid bet rid sub secret).2 = st)
    ∧ (bet = App.MAX_BET + App.STEP_BET
        → (App.play st sid bet rid sub secret).1 = .invalidBet) := by
  obtain ⟨hiff, hst⟩ :=
    App.play_invalidBet_characterization st sid s bet rid sub secret hs
  refine ⟨hiff, fun h => hst (hiff.mp h), fun h => ?_⟩
  apply hiff.mpr
  right
  rw [h]
  norm_num [App.MAX_BET, App.STEP_BET]

/-- Witness for C7 on a concrete state at `bet = MAX_BET + STEP_BET`. -/
theorem C7_bet_validation_witness :
    ((App.play demoState "s1" 101000000 "r1" (fun _ => 0) "sec").1 = .invalidBet
        ↔ ((101000000 : ℤ) < App.MIN_BET ∨ App.MAX_BET < (101000000 : ℤ)))
    ∧ ((App.play demoState "s1" 101000000 "r1" (fun _ => 0) "sec").1 = .invalidBet
        → (App.play demoState "s1" 101000000 "r1" (fun _ => 0) "sec").2 = demoState)
    ∧ ((101000000 : ℤ) = App.MAX_BET + App.STEP_BET
        → (App.play demoState "s1" 101000000 "r1" (fun _ => 0) "sec").1 = .invalidBet) :=
  C7_bet_validation demoState "s1" demoSession 101000000 "r1" (fun _ => 0) "sec" rfl

/-- C7 counterexample to the claim as stated: the bet 1500000 violates only
the step-multiple condition (it is inside the min/max window but not a
multiple of `STEP_BET`), yet `/play` does not reject it with `INVALID_BET` —
the source never checks the step. -/
theorem C7_counterexample :
    (App.play demoState "s1" 1500000 "r1" (fun _ => 0) "secret").1 ≠ .invalidBet
    ∧ App.MIN_BET ≤ 1500000 ∧ (1500000 : ℤ) ≤ App.MAX_BET
    ∧ ¬((1500000 : ℤ) % App.STEP_BET = 0) := by
  refine ⟨?_, by norm_num [App.MIN_BET], by norm_num [App.MAX_BET],
    by norm_num [App.STEP_BET]⟩
  intro h
  have hd := (App.play_invalidBet_characterization demoState "s1" demoSession 1500000 "r1"
    (fun _ => 0) "secret" rfl).1.mp h
  rcases hd with h1 | h1 <;> norm_num [App.MIN_BET, App.MAX_BET] at h1

namespace Sha256

theorem hexVal_hexChar : ∀ d < 16, hexVal (hexChar d) = d := by decide

theorem round_length (st : List ℕ) (kw : ℕ) : (round st kw).length = st.length := by
  unfold round
  split <;> simp

theorem foldl_round_length (kws : List ℕ) (st : List ℕ) :
    (kws.foldl round st).length = st.length := by
  induction kws generalizing st with
  | nil => rfl
  | cons hd tl ih => simp [List.foldl, ih, round_length]

theorem compressBlock_length (h block : List ℕ) :
    (compressBlock h block).length = h.length := by
  simp [compressBlock, List.length_zipWith, foldl_round_length]

theorem foldl_compress_length (l : List ℕ) (f : ℕ → List ℕ) (h0 : List ℕ) :
    (l.foldl (fun h i => compressBlock h (f i)) h0).length = h0.length := by
  induction l generalizing h0 with
  | nil => rfl
  | cons hd tl ih => simp [List.foldl, ih, compressBlock_length]

/-- A SHA-256 digest always has 32 bytes. -/
theorem sha256_length (msg : List ℕ) : (sha256 msg).length = 32 := by
  have hmap : ∀ l : List ℕ, (l.map (List.length ∘ natToBytesBE 4)).sum = 4 * l.length := by
    intro l
    induction l with
    | nil => simp
    | cons hd tl ih =>
      simp [natToBytesBE, ih]
      omega
  simp only [sha256]
  rw [List.length_flatMap, hmap, foldl_compress_length]
  rfl

/-- Every byte of a SHA-256 digest is below 256. -/
theorem sha256_mem_lt (msg : List ℕ) : ∀ b ∈ sha256 msg, b < 256 := by
  intro b hb
  simp only [sha256, List.mem_flatMap] at hb
  obtain ⟨a, _, hb2⟩ := hb
  simp only [natToBytesBE, List.mem_map, List.mem_range] at hb2
  obtain ⟨i, _, rfl⟩ := hb2
  omega

theorem foldl_byte_lt (bs : List ℕ) (h : ∀ b ∈ bs, b < 256) :
    ∀ acc, bs.foldl (fun a b => a * 256 + b) acc < (acc + 1) * 256 ^ bs.length := by
  induction bs with
  | nil => intro acc; simp
  | cons hd tl ih =>
    intro acc
    have hhd : hd < 256 := h hd (by simp)
    have htl : ∀ b ∈ tl, b < 256 := fun b hb => h b (by simp [hb])
    have h1 := ih htl (acc * 256 + hd)
    have h2 : (acc * 256 + hd + 1) * 256 ^ tl.length ≤ (acc + 1) * 256 ^ (tl.length + 1) := by
      have hle : acc * 256 + hd + 1 ≤ (acc + 1) * 256 := by omega
      calc (acc * 256 + hd + 1) * 256 ^ tl.length
          ≤ ((acc + 1) * 256) * 256 ^ tl.length := Nat.mul_le_mul_right _ hle
        _ = (acc + 1) * 256 ^ (tl.length + 1) := by ring
    simpa [List.foldl] using lt_of_lt_of_le h1 h2

/-- The big-endian value of a byte list is below `256 ^ length`. -/
theorem bytesToNatBE_lt (bs : List ℕ) (h : ∀ b ∈ bs, b < 256) :
    bytesToNatBE bs < 256 ^ bs.length := by
  simpa [bytesToNatBE] using foldl_byte_lt bs h 0

theorem hexToNat_take8 (b0 b1 b2 b3 : ℕ) (rest : List ℕ)
    (h0 : b0 < 256) (h1 : b1 < 256) (h2 : b2 < 256) (h3 : b3 < 256) :
    hexToNat ((hexdigest (b0 :: b1 :: b2 :: b3 :: rest)).take 8)
      = bytesToNatBE [b0, b1, b2, b3] := by
  have htake : (hexdigest (b0 :: b1 :: b2 :: b3 :: rest)).take 8 =
      [hexChar (b0/16), hexChar (b0%16), hexChar (b1/16), hexChar (b1%16),
       hexChar (b2/16), hexChar (b2%16), hexChar (b3/16), hexChar (b3%16)] := rfl
  rw [htake]
  have e0 := hexVal_hexChar (b0 / 16) (by omega)
  have e1 := hexVal_hexChar (b0 % 16) (by omega)
  have e2 := hexVal_hexChar (b1 / 16) (by omega)
  have e3 := hexVal_hexChar (b1 % 16) (by omega)
  have e4 := hexVal_hexChar (b2 / 16) (by omega)
  have e5 := hexVal_hexChar (b2 % 16) (by omega)
  have e6 := hexVal_hexChar (b3 / 16) (by omega)
  have e7 := hexVal_hexChar (b3 % 16) (by omega)
  simp [hexToNat, bytesToNatBE, e0, e1, e2, e3, e4, e5, e6, e7]
  omega

/-- Parsing the first 8 hex characters of a hexdigest equals the big-endian
value of the first 4 digest bytes. -/
theorem hexToNat_hexdigest_take (bs : List ℕ) (hlen : 4 ≤ bs.length)
    (hbnd : ∀ b ∈ bs, b < 256) :
    hexToNat ((hexdigest bs).take 8) = bytesToNatBE (bs.take 4) := by
  match bs, hlen with
  | b0 :: b1 :: b2 :: b3 :: rest, _ =>
    have h0 : b0 < 256 := hbnd _ (by simp)
    have h1 : b1 < 256 := hbnd _ (by simp)
    have h2 : b2 < 256 := hbnd _ (by simp)
    have h3 : b3 < 256 := hbnd _ (by simp)
    simpa using hexToNat_take8 b0 b1 b2 b3 rest h0 h1 h2 h3

end Sha256

namespace Sha256

theorem hmac_length (key msg : List ℕ) : (hmac_sha256 key msg).length = 32 := by
  simp only [hmac_sha256]
  exact sha256_length _

theorem hmac_mem_lt (key msg : List ℕ) : ∀ b ∈ hmac_sha256 key msg, b < 256 := by
  simp only [hmac_sha256]
  exact sha256_mem_lt _

end Sha256

/-- Spec-side definition for the C5 refinement, following the words of the
spec (section 4.1): a message-authentication hash over
`client_seed || nonce` keyed by the server seed, folding the leading bytes
of the digest (4 bytes) into a fixed-point fraction. -/
def specBaseDerivation (server_seed client_seed : String) (nonce : ℕ) : ℚ :=
  let digest := Sha256.hmac_sha256 (Sha256.strBytes server_seed)
    (Sha256.strBytes (client_seed ++ ":" ++ toString nonce))
  ((Sha256.bytesToNatBE (digest.take 4) : ℚ)) / ((0xFFFFFFFF : ℕ) : ℚ)

/-- The legacy hex-string derivation equals the byte-level derivation the
spec describes. -/
theorem generate_random_eq_spec (server_seed client_seed : String) (nonce : ℕ) :
    GameMath.ProvablyFairRNG.generate_random server_seed client_seed nonce
      = specBaseDerivation server_seed client_seed nonce := by
  have h := Sha256.hexToNat_hexdigest_take
    (Sha256.hmac_sha256 (Sha256.strBytes server_seed)
      (Sha256.strBytes (client_seed ++ ":" ++ toString nonce)))
    (by rw [Sha256.hmac_length]; norm_num)
    (Sha256.hmac_mem_lt _ _)
  simp only [GameMath.ProvablyFairRNG.generate_random, specBaseDerivation]
  rw [h]

/-- The legacy base value always lies in [0, 1] (division by 0xFFFFFFFF). -/
theorem generate_random_range (server_seed client_seed : String) (nonce : ℕ) :
    0 ≤ GameMath.ProvablyFairRNG.generate_random server_seed client_seed nonce
    ∧ GameMath.ProvablyFairRNG.generate_random server_seed client_seed nonce ≤ 1 := by
  rw [generate_random_eq_spec]
  simp only [specBaseDerivation]
  constructor
  · positivity
  · rw [div_le_one (by norm_num)]
    have hbnd : ∀ b ∈ (Sha256.hmac_sha256 (Sha256.strBytes server_seed)
        (Sha256.strBytes (client_seed ++ ":" ++ toString nonce))).take 4, b < 256 :=
      fun b hb => Sha256.hmac_mem_lt _ _ b (List.mem_of_mem_take hb)
    have hlen : ((Sha256.hmac_sha256 (Sha256.strBytes server_seed)
        (Sha256.strBytes (client_seed ++ ":" ++ toString nonce))).take 4).length = 4 := by
      rw [List.length_take, Sha256.hmac_length]
      norm_num
    have hlt := Sha256.bytesToNatBE_lt _ hbnd
    rw [hlen] at hlt
    have hle : Sha256.bytesToNatBE ((Sha256.hmac_sha256 (Sha256.strBytes server_seed)
        (Sha256.strBytes (client_seed ++ ":" ++ toString nonce))).take 4) ≤ 4294967295 := by
      omega
    exact_mod_cast hle

/-- The world-plan base value always lies in [0, 1) (division by 2^32). -/
theorem provably_fair_rng_range (secret server_seed client_seed : String) (nonce : ℕ) :
    0 ≤ App.provably_fair_rng secret server_seed client_seed nonce
    ∧ App.provably_fair_rng secret server_seed client_seed nonce < 1 := by
  simp only [App.provably_fair_rng]
  constructor
  · positivity
  · rw [div_lt_one (by norm_num)]
    have hbnd : ∀ b ∈ (Sha256.hmac_sha256 (Sha256.strBytes secret)
        (Sha256.strBytes (server_seed ++ ":" ++ client_seed ++ ":" ++ toString nonce))).take 4,
        b < 256 :=
      fun b hb => Sha256.hmac_mem_lt _ _ b (List.mem_of_mem_take hb)
    have hlen : ((Sha256.hmac_sha256 (Sha256.strBytes secret)
        (Sha256.strBytes (server_seed ++ ":" ++ client_seed ++ ":" ++ toString nonce))).take
          4).length = 4 := by
      rw [List.length_take, Sha256.hmac_length]
      norm_num
    have hlt := Sha256.bytesToNatBE_lt _ hbnd
    rw [hlen] at hlt
    exact_mod_cast hlt

/-- C5 (amended): the legacy committed base value is exactly the keyed-hash
construction the spec describes — HMAC-SHA256 over `client_seed:nonce` keyed
by the session server seed, leading 4 digest bytes folded into a fixed-point
fraction — and hence a pure function of (server_seed, client_seed, nonce).
(The world-plan backend instead keys its HMAC by the process-global
SERVER_SECRET; see the counterexample.) -/
theorem C5_base_derivation (server_seed client_seed : String) (nonce : ℕ) :
    GameMath.ProvablyFairRNG.generate_random server_seed client_seed nonce
      = specBaseDerivation server_seed client_seed nonce :=
  generate_random_eq_spec server_seed client_seed nonce

/-- C5 counterexample to the claim as stated: in app.py the derived base
value is NOT a function of only (server_seed, client_seed, nonce) — two
processes whose module-global secrets differ derive different base values
for the same seed pair and nonce. -/
theorem C5_counterexample :
    App.provably_fair_rng "x" "a" "b" 0 ≠ App.provably_fair_rng "y" "a" "b" 0 := by
  have hx : Sha256.bytesToNatBE ((Sha256.hmac_sha256 (Sha256.strBytes "x")
      (Sha256.strBytes ("a" ++ ":" ++ "b" ++ ":" ++ toString 0))).take 4) = 2763896423 := by
    decide
  have hy : Sha256.bytesToNatBE ((Sha256.hmac_sha256 (Sha256.strBytes "y")
      (Sha256.strBytes ("a" ++ ":" ++ "b" ++ ":" ++ toString 0))).take 4) = 2348299158 := by
    decide
  simp only [App.provably_fair_rng]
  rw [hx, hy]
  norm_num

/-- C6: verification round-trip of the legacy engine — verifying the exact
value that `generate_random` derives succeeds, and verifying any value at
distance at least the 0.0001 tolerance from the recomputed value fails. -/
theorem C6_verify_round_trip (server_seed client_seed : String) (nonce : ℕ) (v : ℚ) :
    (v = GameMath.ProvablyFairRNG.generate_random server_seed client_seed nonce →
      GameMath.ProvablyFairRNG.verify_result server_seed client_seed nonce v = true)
    ∧ (1/10000 ≤ |v - GameMath.ProvablyFairRNG.generate_random server_seed client_seed nonce| →
      GameMath.ProvablyFairRNG.verify_result server_seed client_seed nonce v = false) := by
  have hrfl : GameMath.ProvablyFairRNG.verify_result server_seed client_seed nonce v
      = decide (|GameMath.ProvablyFairRNG.generate_random server_seed client_seed nonce - v|
          < 1/10000) := rfl
  constructor
  · intro hv
    rw [hrfl, decide_eq_true_eq, hv, sub_self, abs_zero]
    norm_num
  · intro hge
    rw [hrfl, decide_eq_false_iff_not, not_lt, abs_sub_comm]
    exact hge

/-- Witness for C6 at concrete seeds: the derived value verifies, and the
value 2 (at distance more than the tolerance) is rejected. -/
theorem C6_verify_round_trip_witness :
    GameMath.ProvablyFairRNG.verify_result "a" "b" 0
        (GameMath.ProvablyFairRNG.generate_random "a" "b" 0) = true
    ∧ GameMath.ProvablyFairRNG.verify_result "a" "b" 0 2 = false :=
  ⟨(C6_verify_round_trip "a" "b" 0 (GameMath.ProvablyFairRNG.generate_random "a" "b" 0)).1 rfl,
   (C6_verify_round_trip "a" "b" 0 2).2 (by
      have h := generate_random_range "a" "b" 0
      rw [abs_of_nonneg (by linarith [h.2])]
      linarith [h.2])⟩

/-- C9 (amended): the world-plan base value lies in [0, 1) for every secret,
seed pair and nonce; the legacy base value lies in [0, 1] — dividing by
0xFFFFFFFF allows the value 1 exactly (see the counterexample). -/
theorem C9_base_range (secret server_seed client_seed : String) (nonce : ℕ) :
    (0 ≤ App.provably_fair_rng secret server_seed client_seed nonce
      ∧ App.provably_fair_rng secret server_seed client_seed nonce < 1)
    ∧ (0 ≤ GameMath.ProvablyFairRNG.generate_random server_seed client_seed nonce
      ∧ GameMath.ProvablyFairRNG.generate_random server_seed client_seed nonce ≤ 1) :=
  ⟨provably_fair_rng_range secret server_seed client_seed nonce,
   generate_random_range server_seed client_seed nonce⟩

/-- C9 counterexample to the claim as stated: at this concrete seed pair and
nonce the first 8 hex digits of the legacy HMAC digest are all f, so the
legacy base value equals exactly 1 and is not strictly below 1. -/
theorem C9_counterexample :
    GameMath.ProvablyFairRNG.generate_random
        "aaaaaaaaaaaaaaaaaaaaaaaaaaaaaaaaaaaaaaaaaaaaaaaaaaaaaaaaaaaaaaaa" "deadbeef" 869661793 = 1
    ∧ ¬(GameMath.ProvablyFairRNG.generate_random
        "aaaaaaaaaaaaaaaaaaaaaaaaaaaaaaaaaaaaaaaaaaaaaaaaaaaaaaaaaaaaaaaa" "deadbeef" 869661793 < 1) := by
  have hNat : Sha256.hexToNat ((Sha256.hexdigest (Sha256.hmac_sha256
      (Sha256.strBytes "aaaaaaaaaaaaaaaaaaaaaaaaaaaaaaaaaaaaaaaaaaaaaaaaaaaaaaaaaaaaaaaa")
      (Sha256.strBytes ("deadbeef" ++ ":" ++ toString 869661793)))).take 8) = 4294967295 := by
    decide
  have h1 : GameMath.ProvablyFairRNG.generate_random
      "aaaaaaaaaaaaaaaaaaaaaaaaaaaaaaaaaaaaaaaaaaaaaaaaaaaaaaaaaaaaaaaa" "deadbeef" 869661793 = 1 := by
    simp only [GameMath.ProvablyFairRNG.generate_random]
    rw [hNat]
    norm_num
  exact ⟨h1, by rw [h1]; norm_num⟩

namespace App

theorem finishOutcome_td (bet : ℤ) (m0 : ℚ) (td : ℤ) (bh : Bool) (bhm : ℚ) :
    (finishOutcome bet m0 td bh bhm).terminal_depth_y = td := rfl

/-- Every outcome places the terminal depth at least 500 below the deadzone
entry (in fact at least 2340): the corridor always has positive fall room. -/
theorem calculate_outcome_td_ge (rng : ℚ) (bet : ℤ) (sub : ℕ → ℚ) (h0 : 0 ≤ rng) :
    2000 ≤ (calculate_outcome rng bet sub).terminal_depth_y := by
  unfold calculate_outcome
  split_ifs with h1 h2 h3 h4 <;> rw [finishOutcome_td]
  · have hdp : (840:ℚ) ≤ (5 / 100 + rng / (40 / 100) * (15 / 100))
        * ((GROUND_Y - DEADZONE - 1000 : ℤ) : ℚ) := by
      norm_num [GROUND_Y, DEADZONE]
      nlinarith [h0]
    have h840 : (840 : ℤ) ≤ pyInt ((5 / 100 + rng / (40 / 100) * (15 / 100))
        * ((GROUND_Y - DEADZONE - 1000 : ℤ) : ℚ)) :=
      le_pyInt (by linarith) (by exact_mod_cast hdp)
    have hD : DEADZONE = (1500 : ℤ) := rfl
    omega
  · have hdp : (5190:ℚ) ≤ (3 / 10 + (rng - 40 / 100) / (35 / 100) * (4 / 10))
        * ((GROUND_Y - DEADZONE - 500 : ℤ) : ℚ) := by
      norm_num [GROUND_Y, DEADZONE]
      nlinarith [h1]
    have hb : (5190 : ℤ) ≤ pyInt ((3 / 10 + (rng - 40 / 100) / (35 / 100) * (4 / 10))
        * ((GROUND_Y - DEADZONE - 500 : ℤ) : ℚ)) :=
      le_pyInt (by linarith) (by exact_mod_cast hdp)
    have hD : DEADZONE = (1500 : ℤ) := rfl
    omega
  · have hdp : (12250:ℚ) ≤ (7 / 10 + (rng - 75 / 100) / (17 / 100) * (25 / 100))
        * ((GROUND_Y - DEADZONE - 300 : ℤ) : ℚ) := by
      norm_num [GROUND_Y, DEADZONE]
      nlinarith [h2]
    have hb : (12250 : ℤ) ≤ pyInt ((7 / 10 + (rng - 75 / 100) / (17 / 100) * (25 / 100))
        * ((GROUND_Y - DEADZONE - 300 : ℤ) : ℚ)) :=
      le_pyInt (by linarith) (by exact_mod_cast hdp)
    have hD : DEADZONE = (1500 : ℤ) := rfl
    omega
  · norm_num [GROUND_Y]
  · norm_num [GROUND_Y]

end App

namespace App

/-- Every guide row sits strictly above the terminal depth (at least 500
world units above it). -/
theorem row_y_lt (td : ℤ) (i : ℕ) (htd : 2000 ≤ td) (hi : (i : ℤ) < num_rows td) :
    row_y td i < td := by
  have hn5 : (5 : ℤ) ≤ num_rows td := le_max_left _ _
  have hnq : (0 : ℚ) < ((num_rows td : ℤ) : ℚ) := by exact_mod_cast (by omega : (0:ℤ) < num_rows td)
  have hfrac : (i : ℚ) / ((num_rows td : ℤ) : ℚ) ≤ 1 := by
    rw [div_le_one hnq]
    exact_mod_cast hi.le
  have hfd : (0 : ℚ) ≤ ((td - DEADZONE : ℤ) : ℚ) - 500 := by
    have hD : DEADZONE = (1500 : ℤ) := rfl
    push_cast [hD]
    have : (2000 : ℚ) ≤ (td : ℚ) := by exact_mod_cast htd
    linarith
  have hq0 : 0 ≤ (i : ℚ) / ((num_rows td : ℤ) : ℚ) * (((td - DEADZONE : ℤ) : ℚ) - 500) :=
    mul_nonneg (div_nonneg (by positivity) hnq.le) hfd
  have hqle : (i : ℚ) / ((num_rows td : ℤ) : ℚ) * (((td - DEADZONE : ℤ) : ℚ) - 500)
      ≤ ((td - DEADZONE : ℤ) : ℚ) - 500 := mul_le_of_le_one_left hfd hfrac
  have hcast : ((td - DEADZONE : ℤ) : ℚ) - 500 = ((td - 2000 : ℤ) : ℚ) := by
    have hD : DEADZONE = (1500 : ℤ) := rfl
    push_cast [hD]
    ring
  have hfl : ((pyInt ((i : ℚ) / ((num_rows td : ℤ) : ℚ)
      * (((td - DEADZONE : ℤ) : ℚ) - 500)) : ℤ) : ℚ) ≤ ((td - 2000 : ℤ) : ℚ) := by
    rw [← hcast]
    exact le_trans (pyInt_le hq0) hqle
  have hint : pyInt ((i : ℚ) / ((num_rows td : ℤ) : ℚ) * (((td - DEADZONE : ℤ) : ℚ) - 500))
      ≤ td - 2000 := by exact_mod_cast hfl
  show DEADZONE + pyInt ((i : ℚ) / ((num_rows td : ℤ) : ℚ)
    * (((td - DEADZONE : ℤ) : ℚ) - 500)) < td
  have hD : DEADZONE = (1500 : ℤ) := rfl
  omega

end App

/-- The C3 formalization of a traversable opening in one guide row: an open
horizontal segment of width at least 200 inside the corridor that no cloud
of the row intersects. -/
def rowHasOpening (clouds : List App.Cloud) : Prop :=
  ∃ gl gr : ℚ, App.corridor_left_bound ≤ gl ∧ gr ≤ App.corridor_right_bound
    ∧ gl + 200 ≤ gr
    ∧ ∀ c ∈ clouds, c.x + App.CLOUD1_W ≤ gl ∨ gr ≤ c.x

/-- The C3 formalization of a sealed corridor: every corridor abscissa is
covered, at the terminal depth, by some closure cloud (the cloud spans it
horizontally and its vertical extent contains the terminal depth). -/
def coversCorridorAtDepth (tc : App.TerminalClosure) : Prop :=
  ∀ x : ℚ, App.corridor_left_bound ≤ x → x ≤ App.corridor_right_bound →
    ∃ c ∈ tc.clouds, c.x ≤ x ∧ x ≤ c.x + App.CLOUD1_W
      ∧ c.y ≤ (tc.depth : ℚ) ∧ (tc.depth : ℚ) ≤ c.y + App.CLOUD1_H

/-- Every guide row leaves an opening: the gap computed by the source sits
strictly inside the corridor and separates the left cloud from the right. -/
theorem guideRow_opening (sub : ℕ → ℚ) (td : ℤ) (i : ℕ)
    (hr0 : 0 ≤ sub (i * 10)) (hr1 : sub (i * 10) < 1) :
    rowHasOpening (App.guideRow sub td i) := by
  refine ⟨App.CORRIDOR_CENTER + (sub (i * 10) - 1/2) * (App.CORRIDOR_WIDTH * (4/10))
      - (200 + sub (i * 10) * 150) / 2,
    App.CORRIDOR_CENTER + (sub (i * 10) - 1/2) * (App.CORRIDOR_WIDTH * (4/10))
      + (200 + sub (i * 10) * 150) / 2, ?_, ?_, ?_, ?_⟩
  · norm_num [App.CORRIDOR_CENTER, App.CORRIDOR_WIDTH, App.corridor_left_bound]
    nlinarith [hr0]
  · norm_num [App.CORRIDOR_CENTER, App.CORRIDOR_WIDTH, App.corridor_right_bound]
    nlinarith [hr1]
  · nlinarith [hr0]
  · intro c hc
    simp only [App.guideRow, List.mem_append] at hc
    rcases hc with hc | hc
    · left
      split_ifs at hc <;>
        simp only [List.mem_singleton, List.not_mem_nil] at hc <;>
        (subst hc; dsimp only; linarith)
    · right
      split_ifs at hc <;>
        simp only [List.mem_singleton, List.not_mem_nil] at hc <;>
        (subst hc; dsimp only; linarith)

/-- Helper: a closure cloud built from an offset in the template list covers
the point when the offset satisfies the four span inequalities. -/
theorem cover_of_mem_offsets (off : ℚ × ℚ) (offs : List (ℚ × ℚ)) (hmem : off ∈ offs)
    (td : ℤ) (x : ℚ)
    (hx1 : App.CORRIDOR_CENTER + off.1 - App.CLOUD1_W / 2 ≤ x)
    (hx2 : x ≤ App.CORRIDOR_CENTER + off.1 - App.CLOUD1_W / 2 + App.CLOUD1_W)
    (hy1 : (td : ℚ) + off.2 ≤ (td : ℚ))
    (hy2 : (td : ℚ) ≤ (td : ℚ) + off.2 + App.CLOUD1_H) :
    ∃ c ∈ offs.map (fun off =>
        ({ x := App.CORRIDOR_CENTER + off.1 - App.CLOUD1_W / 2,
           y := (td : ℚ) + off.2, scale := 16/10 } : App.TerminalCloud)),
      c.x ≤ x ∧ x ≤ c.x + App.CLOUD1_W ∧ c.y ≤ (td : ℚ) ∧ (td : ℚ) ≤ c.y + App.CLOUD1_H :=
  ⟨_, List.mem_map_of_mem _ hmem, hx1, hx2, hy1, hy2⟩

/-- Each of the three terminal-closure templates seals the corridor: every
corridor abscissa is blocked at the terminal depth. -/
theorem closure_covers (sub : ℕ → ℚ) (td : ℤ) (il : Bool) :
    coversCorridorAtDepth (App.generate_terminal_closure sub td il) := by
  have hW : App.CLOUD1_W = (544 : ℚ) := by norm_num [App.CLOUD1_W]
  have hH : App.CLOUD1_H = (272 : ℚ) := by norm_num [App.CLOUD1_H]
  have hC : App.CORRIDOR_CENTER = (960 : ℚ) := rfl
  intro x hxl hxr
  rw [show App.corridor_left_bound = (560 : ℚ) by
    norm_num [App.corridor_left_bound, App.CORRIDOR_CENTER, App.CORRIDOR_WIDTH]] at hxl
  rw [show App.corridor_right_bound = (1360 : ℚ) by
    norm_num [App.corridor_right_bound, App.CORRIDOR_CENTER, App.CORRIDOR_WIDTH]] at hxr
  simp only [App.generate_terminal_closure]
  split_ifs with h1 h2 <;> dsimp only
  · -- FLAT_SEAL: spans [238,782], [538,1082], [838,1382], [1138,1682]
    rcases le_or_lt x 782 with hx | hx
    · exact cover_of_mem_offsets ((-450 : ℚ), (0 : ℚ)) _ (by simp) td x
        (by dsimp only; linarith) (by dsimp only; linarith)
        (by dsimp only; linarith) (by dsimp only; linarith)
    · rcases le_or_lt x 1082 with hx2 | hx2
      · exact cover_of_mem_offsets ((-150 : ℚ), (0 : ℚ)) _ (by simp) td x
          (by dsimp only; linarith) (by dsimp only; linarith)
          (by dsimp only; linarith) (by dsimp only; linarith)
      · exact cover_of_mem_offsets ((150 : ℚ), (0 : ℚ)) _ (by simp) td x
          (by dsimp only; linarith) (by dsimp only; linarith)
          (by dsimp only; linarith) (by dsimp only; linarith)
  · -- OFFSET_SEAL: y=0 spans [388,932] and [988,1532]; the (0,-200) cloud
    -- spans [688,1232] and vertically reaches down to td+72
    rcases le_or_lt x 932 with hx | hx
    · exact cover_of_mem_offsets ((-300 : ℚ), (0 : ℚ)) _ (by simp) td x
        (by dsimp only; linarith) (by dsimp only; linarith)
        (by dsimp only; linarith) (by dsimp only; linarith)
    · rcases le_or_lt x 1232 with hx2 | hx2
      · exact cover_of_mem_offsets ((0 : ℚ), (-200 : ℚ)) _ (by simp) td x
          (by dsimp only; linarith) (by dsimp only; linarith)
          (by dsimp only; linarith) (by dsimp only; linarith)
      · exact cover_of_mem_offsets ((300 : ℚ), (0 : ℚ)) _ (by simp) td x
          (by dsimp only; linarith) (by dsimp only; linarith)
          (by dsimp only; linarith) (by dsimp only; linarith)
  · -- FUNNEL_COLLAPSE: the (0,0), (-350,-250), (350,-250) clouds cover
    -- [688,1232], [338,882], [1038,1582]; the -250 clouds still reach td+22
    rcases le_or_lt x 882 with hx | hx
    · exact cover_of_mem_offsets ((-350 : ℚ), (-250 : ℚ)) _ (by simp) td x
        (by dsimp only; linarith) (by dsimp only; linarith)
        (by dsimp only; linarith) (by dsimp only; linarith)
    · rcases le_or_lt x 1232 with hx2 | hx2
      · exact cover_of_mem_offsets ((0 : ℚ), (0 : ℚ)) _ (by simp) td x
          (by dsimp only; linarith) (by dsimp only; linarith)
          (by dsimp only; linarith) (by dsimp only; linarith)
      · exact cover_of_mem_offsets ((350 : ℚ), (-250 : ℚ)) _ (by simp) td x
          (by dsimp only; linarith) (by dsimp only; linarith)
          (by dsimp only; linarith) (by dsimp only; linarith)

/-- C3: reachability invariant of the geometric plan. For every base value
and every generated outcome, each guide-cloud row lies strictly above the
terminal depth and leaves a traversable opening (width at least 200) inside
the corridor, and the chosen terminal-closure template (whichever of
FLAT_SEAL, OFFSET_SEAL, FUNNEL_COLLAPSE the sub-draw selects) covers the
full corridor width at the terminal depth. -/
theorem C3_reachability (rng : ℚ) (bet : ℤ) (sub : ℕ → ℚ)
    (h0 : 0 ≤ rng) (h1 : rng < 1) (hsub : ∀ j, 0 ≤ sub j ∧ sub j < 1) :
    (∀ i : ℕ, (i : ℤ) < App.num_rows (App.calculate_outcome rng bet sub).terminal_depth_y →
        App.row_y (App.calculate_outcome rng bet sub).terminal_depth_y i
            < (App.calculate_outcome rng bet sub).terminal_depth_y
        ∧ rowHasOpening
            (App.guideRow sub (App.calculate_outcome rng bet sub).terminal_depth_y i))
    ∧ coversCorridorAtDepth (App.generate_terminal_closure sub
        (App.calculate_outcome rng bet sub).terminal_depth_y
        (App.calculate_outcome rng bet sub).is_loss) := by
  have htd := App.calculate_outcome_td_ge rng bet sub h0
  exact ⟨fun i hi =>
    ⟨App.row_y_lt _ i htd hi,
     guideRow_opening sub _ i (hsub (i * 10)).1 (hsub (i * 10)).2⟩,
    closure_covers sub _ _⟩

/-- Witness for C3 at a concrete base value and sub-draw stream. -/
theorem C3_reachability_witness :
    (∀ i : ℕ, (i : ℤ) < App.num_rows
          (App.calculate_outcome (1/2) 1000000 (fun _ => 1/2)).terminal_depth_y →
        App.row_y (App.calculate_outcome (1/2) 1000000 (fun _ => 1/2)).terminal_depth_y i
            < (App.calculate_outcome (1/2) 1000000 (fun _ => 1/2)).terminal_depth_y
        ∧ rowHasOpening (App.guideRow (fun _ => 1/2)
            (App.calculate_outcome (1/2) 1000000 (fun _ => 1/2)).terminal_depth_y i))
    ∧ coversCorridorAtDepth (App.generate_terminal_closure (fun _ => 1/2)
        (App.calculate_outcome (1/2) 1000000 (fun _ => 1/2)).terminal_depth_y
        (App.calculate_outcome (1/2) 1000000 (fun _ => 1/2)).is_loss) :=
  C3_reachability (1/2) 1000000 (fun _ => 1/2) (by norm_num) (by norm_num)
    (fun j => by norm_num)
